import Mathlib

/-
Verification development for the discord-issue-dashboard sync pipeline.

Shallow embedding of:
  * utils/common.py   : normalize_progress, parse_date (CPython strptime
                        semantics for the four formats in DATE_FORMATS)
  * utils/db.py       : safe_replace_issues, get_all_issues, get_issues_count,
                        filter_issues, log_sync, over an explicit SQLite-like
                        store (issues table keyed by INTEGER PRIMARY KEY id,
                        TEXT columns; sync_log as an append-only list)
  * scripts/sync_google_sheets.py : retry_on_error, transform_data, sync

Machine behaviour that matters to the claims is made explicit:
  * SQLite type affinity on INSERT: values going into the INTEGER PRIMARY KEY
    column `id` must be integers or well-formed integer literals, otherwise the
    statement fails with a datatype mismatch; NULL auto-assigns a fresh rowid.
    Values going into TEXT columns are stored as text (integers rendered in
    decimal), NULL stays NULL.
  * the DELETE + executemany + commit sequence of safe_replace_issues runs in
    one transaction; a fault at any step rolls the whole store back.  Faults
    are injected through an explicit FailPoint parameter.
-/

/-- Python str.isspace-style test for the characters str.strip removes
    (ASCII subset actually produced by the spreadsheet source). -/
def pyIsSpace (c : Char) : Bool :=
  c == ' ' || c == '\t' || c == '\n' || c == '\r' || c == '\x0b' || c == '\x0c'

/-- Python str.strip(): drop leading and trailing whitespace. -/
def pyStrip (s : String) : String :=
  ⟨((s.data.dropWhile pyIsSpace).reverse.dropWhile pyIsSpace).reverse⟩

/-- PROGRESS_MAPPING from utils/common.py: the fixed variant table. -/
def PROGRESS_MAPPING : List (String × String) :=
  [ ("done", "Done"),
    ("Done", "Done"),
    ("DONE", "Done"),
    ("in progress", "In Progress"),
    ("In Progress", "In Progress"),
    ("In progress", "In Progress"),
    ("IN PROGRESS", "In Progress"),
    ("pending", "Pending"),
    ("Pending", "Pending"),
    ("PENDING", "Pending"),
    ("block", "Blocked"),
    ("Block", "Blocked"),
    ("blocked", "Blocked"),
    ("Blocked", "Blocked"),
    ("BLOCKED", "Blocked") ]

/-- PROGRESS_VALUES from utils/common.py. -/
def PROGRESS_VALUES : List String := ["Done", "In Progress", "Pending", "Blocked"]

/-- normalize_progress from utils/common.py.  `none` stands for an absent /
    NaN input (pd.isna or None); a present value is stripped and looked up in
    the fixed table, default "Unknown". -/
def normalize_progress (value : Option String) : String :=
  match value with
  | none => "Unknown"
  | some v => (PROGRESS_MAPPING.lookup (pyStrip v)).getD "Unknown"

/-- Calendar date as produced by datetime.strptime. -/
structure PDate where
  year : Nat
  month : Nat
  day : Nat
deriving DecidableEq

def isLeapYear (y : Nat) : Bool :=
  (y % 4 == 0 && y % 100 != 0) || y % 400 == 0

def daysInMonth (y m : Nat) : Nat :=
  if m == 2 then (if isLeapYear y then 29 else 28)
  else if m == 4 || m == 6 || m == 9 || m == 11 then 30
  else 31

/-- datetime date-construction validity: year 1..9999, day within month.
    (Month range is guaranteed by the field pattern.) -/
def mkValidDate (y m d : Nat) : Option PDate :=
  if 1 ≤ y && y ≤ 9999 && 1 ≤ d && d ≤ daysInMonth y m then some ⟨y, m, d⟩ else none

/-- Value of a list of decimal digits, most significant first. -/
def digitsToNat (l : List Char) : Nat :=
  l.foldl (fun acc c => acc * 10 + (c.toNat - 48)) 0

/-- Split a string at every occurrence of a separator character
    (kernel-reducible equivalent of String.splitOn for a 1-char separator). -/
def splitCharAux (sep : Char) : List Char → List (List Char)
  | [] => [[]]
  | c :: rest =>
    match splitCharAux sep rest with
    | [] => if c == sep then [[], []] else [[c]]
    | h :: t => if c == sep then [] :: h :: t else (c :: h) :: t

def splitOnChar (sep : Char) (s : String) : List String :=
  (splitCharAux sep s.data).map (⟨·⟩)

/-- Decimal field of minLen..maxLen digits whose value lies in lo..hi
    (the shape of the CPython _strptime regex fragments). -/
def fieldNat? (s : String) (minLen maxLen lo hi : Nat) : Option Nat :=
  if minLen ≤ s.data.length && s.data.length ≤ maxLen && s.data.all Char.isDigit then
    let v := digitsToNat s.data
    if lo ≤ v && v ≤ hi then some v else none
  else none

/-- Month field of strptime, pattern 1[0-2]|0[1-9]|[1-9]. -/
def monthField? (s : String) : Option Nat := fieldNat? s 1 2 1 12

/-- Day field of strptime, pattern 3[01]|[12]d|0[1-9]|[1-9]. -/
def dayField? (s : String) : Option Nat := fieldNat? s 1 2 1 31

/-- A 4-digit year field of strptime, pattern dddd. -/
def year4Field? (s : String) : Option Nat := fieldNat? s 4 4 0 9999

/-- A 2-digit year field of strptime, values 0..68 map to 2000..2068,
    69..99 to 1969..1999. -/
def year2Field? (s : String) : Option Nat :=
  (fieldNat? s 2 2 0 99).map (fun v => if v ≤ 68 then 2000 + v else 1900 + v)

/-- strptime on the string with format m/d/Y. -/
def parseMDY4 (s : String) : Option PDate :=
  match splitOnChar '/' s with
  | [a, b, c] => do
    let m ← monthField? a
    let d ← dayField? b
    let y ← year4Field? c
    mkValidDate y m d
  | _ => none

/-- strptime on the string with format Y-m-d. -/
def parseISO (s : String) : Option PDate :=
  match splitOnChar '-' s with
  | [a, b, c] => do
    let y ← year4Field? a
    let m ← monthField? b
    let d ← dayField? c
    mkValidDate y m d
  | _ => none

/-- strptime on the string with format m/d/y (2-digit year). -/
def parseMDY2 (s : String) : Option PDate :=
  match splitOnChar '/' s with
  | [a, b, c] => do
    let m ← monthField? a
    let d ← dayField? b
    let y ← year2Field? c
    mkValidDate y m d
  | _ => none

/-- strptime on the string with format d/m/Y. -/
def parseDMY4 (s : String) : Option PDate :=
  match splitOnChar '/' s with
  | [a, b, c] => do
    let d ← dayField? a
    let m ← monthField? b
    let y ← year4Field? c
    mkValidDate y m d
  | _ => none

/-- DATE_FORMATS from utils/common.py, in priority order. -/
def DATE_FORMATS : List String := ["%m/%d/%Y", "%Y-%m-%d", "%m/%d/%y", "%d/%m/%Y"]

/-- Dispatch one strptime format string of DATE_FORMATS. -/
def tryFormat (fmt s : String) : Option PDate :=
  if fmt == "%m/%d/%Y" then parseMDY4 s
  else if fmt == "%Y-%m-%d" then parseISO s
  else if fmt == "%m/%d/%y" then parseMDY2 s
  else if fmt == "%d/%m/%Y" then parseDMY4 s
  else none

/-- The for-loop of parse_date: first format that parses wins. -/
def tryFormatList : List String → String → Option PDate
  | [], _ => none
  | f :: fs, s =>
    match tryFormat f s with
    | some d => some d
    | none => tryFormatList fs s

/-- parse_date from utils/common.py.  `none` is an absent/NaN input; the empty
    string is falsy and short-circuits; otherwise the input is stripped and the
    formats are tried in order. -/
def parse_date (o : Option String) : Option PDate :=
  match o with
  | none => none
  | some ds => if ds == "" then none else tryFormatList DATE_FORMATS (pyStrip ds)

deriving instance DecidableEq for Except

/-- SQLite value as bound from a Python object: str, int, or None/NULL. -/
inductive Cell where
  | s (v : String)
  | i (v : Int)
  | null
deriving DecidableEq

/-- Canonical row dict handed to the storage layer: the eleven keys of the
    `columns` list in utils/db.py (item.get defaults a missing key to "",
    so every key is represented). -/
structure Row where
  id : Cell
  date : Cell
  channel : Cell
  original_source : Cell
  category : Cell
  issue : Cell
  owner : Cell
  reply_approach : Cell
  progress : Cell
  result : Cell
  problem_category : Cell
deriving DecidableEq

/-- Row of the issues table as stored: `id` is the INTEGER PRIMARY KEY, the
    ten remaining columns have TEXT affinity and are nullable. -/
structure StoredRow where
  id : Int
  date : Option String
  channel : Option String
  original_source : Option String
  category : Option String
  issue : Option String
  owner : Option String
  reply_approach : Option String
  progress : Option String
  result : Option String
  problem_category : Option String
deriving DecidableEq

/-- Row of the sync_log table (sync_time left abstract: records are kept in
    append order, which log_sync / get_last_sync rely on). -/
structure SyncRecord where
  rows_synced : Nat
  status : String
  message : String
deriving DecidableEq

/-- Database state: issues in insertion order, sync_log in append order. -/
structure DB where
  issues : List StoredRow
  sync_log : List SyncRecord
deriving DecidableEq

def emptyDB : DB := ⟨[], []⟩

/-- SQLite TEXT-affinity conversion of a bound value: text stays text,
    integers are rendered in decimal, NULL stays NULL. -/
def toText : Cell → Option String
  | .s v => some v
  | .i v => some (toString v)
  | .null => none

/-- Well-formed SQLite integer literal: optional sign, then digits. -/
def intLit? (s : String) : Option Int :=
  if s.startsWith "+" then ((s.drop 1).toNat?).map Int.ofNat
  else if s.startsWith "-" then ((s.drop 1).toNat?).map (fun n => -(Int.ofNat n))
  else s.toNat?.map Int.ofNat

/-- Binding a value to the INTEGER PRIMARY KEY column `id`: integers pass,
    NULL auto-assigns a fresh rowid (largest existing rowid plus one), text
    must be a well-formed integer literal or the statement fails with
    "datatype mismatch". -/
def assignId (c : Cell) (issues : List StoredRow) : Except String Int :=
  match c with
  | .i v => .ok v
  | .null => .ok ((issues.foldl (fun m r => max m r.id) 0) + 1)
  | .s v =>
    match intLit? v with
    | some n => .ok n
    | none => .error "datatype mismatch"

/-- Stored image of a canonical row under a resolved primary key. -/
def toStored (pk : Int) (r : Row) : StoredRow :=
  { id := pk
    date := toText r.date
    channel := toText r.channel
    original_source := toText r.original_source
    category := toText r.category
    issue := toText r.issue
    owner := toText r.owner
    reply_approach := toText r.reply_approach
    progress := toText r.progress
    result := toText r.result
    problem_category := toText r.problem_category }

/-- INSERT OR REPLACE: a row conflicting on the primary key is deleted and
    the fresh row inserted (hence appended in insertion order). -/
def insertOrReplace (r : StoredRow) (issues : List StoredRow) : List StoredRow :=
  issues.filter (fun x => x.id ≠ r.id) ++ [r]

/-- Injected fault for exercising the transaction: nothing, the DELETE
    statement failing, or the bulk insert failing at a given row index. -/
inductive FailPoint where
  | noFail
  | atDelete (msg : String)
  | atInsert (idx : Nat) (msg : String)
deriving DecidableEq

def fpTriggersAt : FailPoint → Nat → Bool
  | .atInsert j _, idx => j == idx
  | _, _ => false

def fpMsg : FailPoint → String
  | .atInsert _ m => m
  | .atDelete m => m
  | .noFail => ""

/-- The executemany loop of safe_replace_issues over the working (already
    cleared) table, with fault injection between rows. -/
def runInserts (fp : FailPoint) : List Row → Nat → List StoredRow → Except String (List StoredRow)
  | [], _, work => .ok work
  | r :: rest, idx, work =>
    if fpTriggersAt fp idx then .error (fpMsg fp)
    else
      match assignId r.id work with
      | .error e => .error e
      | .ok pk => runInserts fp rest (idx + 1) (insertOrReplace (toStored pk r) work)

/-- safe_replace_issues from utils/db.py.  Empty input short-circuits to 0
    before the transaction is opened; otherwise DELETE + executemany + commit
    run in one transaction and any failure rolls the store back to `db` and
    re-raises (the Except.error result).  On success the return value is
    len(rows) and the table holds exactly the freshly inserted rows. -/
def safe_replace_issues (issues : List Row) (fp : FailPoint) (db : DB) :
    Except String Nat × DB :=
  if issues = [] then (.ok 0, db)
  else
    match fp with
    | .atDelete m => (.error m, db)
    | _ =>
      match runInserts fp issues 0 [] with
      | .error e => (.error e, db)
      | .ok work => (.ok issues.length, { db with issues := work })

/-- log_sync from utils/db.py: append one ledger row. -/
def log_sync (db : DB) (rows_synced : Nat) (status message : String) : DB :=
  { db with sync_log := db.sync_log ++ [⟨rows_synced, status, message⟩] }

/-- Insertion step of an id-descending sort (model of ORDER BY id DESC). -/
def insertDesc (r : StoredRow) : List StoredRow → List StoredRow
  | [] => [r]
  | x :: xs => if r.id ≤ x.id then x :: insertDesc r xs else r :: x :: xs

def sortByIdDesc (l : List StoredRow) : List StoredRow :=
  l.foldr insertDesc []

/-- get_all_issues from utils/db.py: SELECT * FROM issues ORDER BY id DESC. -/
def get_all_issues (db : DB) : List StoredRow :=
  sortByIdDesc db.issues

/-- get_issues_count from utils/db.py: SELECT COUNT(*) FROM issues. -/
def get_issues_count (db : DB) : Nat :=
  db.issues.length

/-- One equality condition of filter_issues: a falsy argument (None or the
    empty string) adds no condition; otherwise SQL `col = ?` (NULL never
    compares equal). -/
def condHolds (arg : Option String) (field : Option String) : Bool :=
  match arg with
  | none => true
  | some a => if a = "" then true else field == some a

/-- The `date >= ?` condition (SQLite BINARY text comparison; NULL fails). -/
def dateFromHolds (arg : Option String) (field : Option String) : Bool :=
  match arg with
  | none => true
  | some a =>
    if a = "" then true
    else match field with
      | some d => decide (a ≤ d)
      | none => false

/-- The `date <= ?` condition. -/
def dateToHolds (arg : Option String) (field : Option String) : Bool :=
  match arg with
  | none => true
  | some a =>
    if a = "" then true
    else match field with
      | some d => decide (d ≤ a)
      | none => false

/-- filter_issues from utils/db.py: conjunction of the conditions added for
    each truthy argument, ORDER BY id DESC. -/
def filter_issues (category progress owner date_from date_to problem_category :
    Option String) (db : DB) : List StoredRow :=
  sortByIdDesc (db.issues.filter (fun r =>
    condHolds category r.category &&
    condHolds progress r.progress &&
    condHolds owner r.owner &&
    dateFromHolds date_from r.date &&
    dateToHolds date_to r.date &&
    condHolds problem_category r.problem_category))

/-- Raw spreadsheet record as returned by get_all_records: one optional value
    per header of COLUMN_MAPPING in config.py ("ID", "Date", "Channel / Chat",
    "Original Source", "Category", "Issue", "Owner", "Reply / Approach",
    "Progress", "Result", "Problem_Category"); `none` means the key is absent
    (row.get then defaults to ""). -/
structure RawRow where
  ID : Option Cell
  Date : Option Cell
  Channel_Chat : Option Cell
  Original_Source : Option Cell
  Category : Option Cell
  Issue : Option Cell
  Owner : Option Cell
  Reply_Approach : Option Cell
  Progress : Option Cell
  Result : Option Cell
  Problem_Category : Option Cell
deriving DecidableEq

/-- row.get(key, ""): an absent key reads as the empty string. -/
def rawGet (v : Option Cell) : Cell :=
  v.getD (.s "")

/-- value.strip() applied only when the value is a str. -/
def stripCell : Cell → Cell
  | .s v => .s (pyStrip v)
  | c => c

/-- The skip test of transform_data: raw_id == "" or raw_id is None. -/
def badId (c : Cell) : Bool :=
  c == .s "" || c == .null

/-- Canonical row built from one retained raw row: every mapped column is
    fetched with default "" and stripped when it is a string. -/
def mapRow (r : RawRow) : Row :=
  { id := stripCell (rawGet r.ID)
    date := stripCell (rawGet r.Date)
    channel := stripCell (rawGet r.Channel_Chat)
    original_source := stripCell (rawGet r.Original_Source)
    category := stripCell (rawGet r.Category)
    issue := stripCell (rawGet r.Issue)
    owner := stripCell (rawGet r.Owner)
    reply_approach := stripCell (rawGet r.Reply_Approach)
    progress := stripCell (rawGet r.Progress)
    result := stripCell (rawGet r.Result)
    problem_category := stripCell (rawGet r.Problem_Category) }

/-- transform_data from scripts/sync_google_sheets.py: drop rows whose raw ID
    is absent, empty or None (counting them), map and trim the rest, keeping
    input order.  Returns (transformed, skipped). -/
def transform_data : List RawRow → List Row × Nat
  | [] => ([], 0)
  | r :: rest =>
    let (ts, sk) := transform_data rest
    if badId (rawGet r.ID) then (ts, sk + 1) else (mapRow r :: ts, sk)

/-- sync from scripts/sync_google_sheets.py.  The outcome of the (retried)
    fetch step arrives as an Except; storage faults of the replace step are
    injected through the FailPoint.  Any exception inside the try block is
    caught, a failed ledger record is appended, and False is returned — the
    function is total, nothing propagates past it. -/
def sync (fetchRes : Except String (List RawRow)) (fp : FailPoint) (db : DB) :
    Bool × DB :=
  match fetchRes with
  | .error e => (false, log_sync db 0 "failed" e)
  | .ok raw =>
    let data := (transform_data raw).1
    match safe_replace_issues data fp db with
    | (.error e, db') => (false, log_sync db' 0 "failed" e)
    | (.ok count, db') => (true, log_sync db' count "success" "Full sync completed")

/-- MAX_RETRIES from scripts/sync_google_sheets.py. -/
def MAX_RETRIES : Nat := 3

/-- BASE_DELAY from scripts/sync_google_sheets.py (seconds). -/
def BASE_DELAY : Nat := 2

/-- The for-loop of retry_on_error over the remaining attempt indices.  The
    attempt outcomes are given by `f`; the returned list records the sleeps
    performed (in seconds).  Falling off the loop returns Python's implicit
    None (ok none) — unreachable when started from range MAX_RETRIES. -/
def retryGo (f : Nat → Except String α) :
    List Nat → List Nat → Except String (Option α) × List Nat
  | [], sleeps => (.ok none, sleeps)
  | a :: rest, sleeps =>
    match f a with
    | .ok v => (.ok (some v), sleeps)
    | .error e =>
      if a = MAX_RETRIES - 1 then (.error e, sleeps)
      else retryGo f rest (sleeps ++ [BASE_DELAY * 2 ^ a])

/-- retry_on_error from scripts/sync_google_sheets.py. -/
def retry_on_error (f : Nat → Except String α) : Except String (Option α) × List Nat :=
  retryGo f (List.range MAX_RETRIES) []

/-- Does the value carry a Python str. -/
def cellIsStr : Cell → Bool
  | .s _ => true
  | _ => false

/-- Does the value carry a Python int. -/
def cellIsInt : Cell → Bool
  | .i _ => true
  | _ => false

/-- Integer carried by the value (0 when it is not an int). -/
def cellInt : Cell → Int
  | .i v => v
  | _ => 0

/-- All ten non-id fields of the canonical row are strings. -/
def rowTextFields (r : Row) : Bool :=
  cellIsStr r.date && cellIsStr r.channel && cellIsStr r.original_source &&
  cellIsStr r.category && cellIsStr r.issue && cellIsStr r.owner &&
  cellIsStr r.reply_approach && cellIsStr r.progress && cellIsStr r.result &&
  cellIsStr r.problem_category

/-- Value read back from a TEXT column: text or NULL. -/
def optCell : Option String → Cell
  | some v => .s v
  | none => .null

/-- A stored row read back as a canonical row (how sqlite3.Row surfaces the
    eleven columns to Python). -/
def storedToRow (sr : StoredRow) : Row :=
  { id := .i sr.id
    date := optCell sr.date
    channel := optCell sr.channel
    original_source := optCell sr.original_source
    category := optCell sr.category
    issue := optCell sr.issue
    owner := optCell sr.owner
    reply_approach := optCell sr.reply_approach
    progress := optCell sr.progress
    result := optCell sr.result
    problem_category := optCell sr.problem_category }

/-- Concrete canonical row used by the attestation theorems. -/
def exRow (n : Int) (txt : String) : Row :=
  { id := .i n
    date := .s "01/23/2026"
    channel := .s "rocm"
    original_source := .s ""
    category := .s "ROCm Issue"
    issue := .s txt
    owner := .s "Alice"
    reply_approach := .s ""
    progress := .s "Done"
    result := .s ""
    problem_category := .s "Setup/Drivers" }

/-- Canonical row whose id is the empty string (what transform_data produces
    from a whitespace-only spreadsheet ID). -/
def emptyIdRow : Row :=
  { exRow 1 "ghost" with id := .s "" }

/-- A store holding one previously committed issue row. -/
def dbPrev : DB :=
  ⟨[{ id := 7, date := some "01/01/2026", channel := some "pytorch",
      original_source := some "", category := some "old", issue := some "old",
      owner := some "Bob", reply_approach := some "", progress := some "Pending",
      result := some "", problem_category := some "Library/Build" }], []⟩

/-- Concrete raw spreadsheet row with a valid ID. -/
def exRawRow : RawRow :=
  { ID := some (.i 1), Date := some (.s "01/23/2026"),
    Channel_Chat := some (.s "rocm"), Original_Source := some (.s ""),
    Category := some (.s "ROCm Issue"), Issue := some (.s "it fails"),
    Owner := some (.s "Alice"), Reply_Approach := some (.s ""),
    Progress := some (.s "Done"), Result := some (.s ""),
    Problem_Category := some (.s "Setup/Drivers") }

/-- Store obtained by replacing the empty store with rows whose ids arrive in
    the order [2, 1] (so the most recently inserted row has id 1). -/
def dbOutOfOrder : DB :=
  (safe_replace_issues [exRow 2 "first inserted", exRow 1 "last inserted"]
    .noFail emptyDB).2

/-- Association lookup misses when the key differs from every table key. -/
theorem lookup_eq_none_of_forall {β : Type} {l : List (String × β)} {k : String}
    (h : ∀ kv ∈ l, k ≠ kv.1) : l.lookup k = none := by
  induction l with
  | nil => rfl
  | cons a t ih =>
    obtain ⟨k1, v1⟩ := a
    have hk : k ≠ k1 := h (k1, v1) (List.mem_cons_self _ _)
    simp only [List.lookup, beq_eq_false_iff_ne.mpr hk]
    exact ih (fun kv hkv => h kv (List.mem_cons_of_mem _ hkv))

/-- Every table entry is found by lookup (the table keys are distinct). -/
theorem progress_lookup_hits :
    ∀ kv ∈ PROGRESS_MAPPING, PROGRESS_MAPPING.lookup kv.1 = some kv.2 := by
  decide

/-- C3: normalize_progress is a pure total function: an input whose stripped
    form is a key of the known-variant table (so in particular any
    whitespace-padded variant of a table key) maps to its canonical value,
    which always lies in {Done, In Progress, Pending, Blocked}; any other
    input — including the empty string and an absent/None value — yields
    "Unknown". -/
theorem normalize_progress_table_and_unknown :
    (normalize_progress none = "Unknown" ∧ normalize_progress (some "") = "Unknown")
    ∧ (∀ s k v, (k, v) ∈ PROGRESS_MAPPING → pyStrip s = k →
        normalize_progress (some s) = v)
    ∧ (∀ s, (∀ kv ∈ PROGRESS_MAPPING, pyStrip s ≠ kv.1) →
        normalize_progress (some s) = "Unknown")
    ∧ (∀ kv ∈ PROGRESS_MAPPING, kv.2 ∈ PROGRESS_VALUES)
    ∧ (∀ kv ∈ PROGRESS_MAPPING, normalize_progress (some (" " ++ kv.1 ++ "\t ")) = kv.2) := by
  refine ⟨⟨rfl, by decide⟩, ?_, ?_, by decide, by decide⟩
  · intro s k v hm hs
    have hl : PROGRESS_MAPPING.lookup k = some v := progress_lookup_hits (k, v) hm
    simp only [normalize_progress, hs, hl, Option.getD_some]
  · intro s h
    simp only [normalize_progress, lookup_eq_none_of_forall h, Option.getD_none]

/-- Attestation of normalize_progress_table_and_unknown at concrete inputs. -/
theorem normalize_progress_attest :
    normalize_progress (some "  BLOCKED ") = "Blocked"
    ∧ normalize_progress (some "whatever") = "Unknown" :=
  ⟨normalize_progress_table_and_unknown.2.1 "  BLOCKED " "BLOCKED" "Blocked"
      (by decide) (by decide),
   normalize_progress_table_and_unknown.2.2.1 "whatever" (by decide)⟩

/-- C7: parse_date returns "no date" on absent/empty input, otherwise strips
    the input and tries the four DATE_FORMATS in their fixed priority order,
    returning the first successful parse — so "01/02/2026" resolves as
    month/day — and returns "no date" when no format matches, never failing. -/
theorem parse_date_priority_and_fallback :
    (parse_date none = none ∧ parse_date (some "") = none)
    ∧ (∀ s, s ≠ "" → parse_date (some s) = tryFormatList DATE_FORMATS (pyStrip s))
    ∧ parse_date (some "01/02/2026") = some ⟨2026, 1, 2⟩
    ∧ (parse_date (some "01/23/2026") = some ⟨2026, 1, 23⟩
       ∧ parse_date (some "2026-01-23") = some ⟨2026, 1, 23⟩
       ∧ parse_date (some "01/23/26") = some ⟨2026, 1, 23⟩
       ∧ parse_date (some "23/01/2026") = some ⟨2026, 1, 23⟩)
    ∧ (∀ s, (∀ f ∈ DATE_FORMATS, tryFormat f (pyStrip s) = none) →
        parse_date (some s) = none) := by
  refine ⟨⟨rfl, by decide⟩, ?_, by decide, by decide, ?_⟩
  · intro s hs
    simp only [parse_date, beq_eq_false_iff_ne.mpr hs, Bool.false_eq_true, if_false]
  · intro s h
    by_cases hse : s = ""
    · subst hse; decide
    · rw [show parse_date (some s)
            = tryFormatList DATE_FORMATS (pyStrip s) from by
          simp only [parse_date, beq_eq_false_iff_ne.mpr hse, Bool.false_eq_true, if_false]]
      have h1 := h "%m/%d/%Y" (by decide)
      have h2 := h "%Y-%m-%d" (by decide)
      have h3 := h "%m/%d/%y" (by decide)
      have h4 := h "%d/%m/%Y" (by decide)
      simp [tryFormatList, DATE_FORMATS, h1, h2, h3, h4]

/-- Attestation of parse_date_priority_and_fallback at concrete inputs. -/
theorem parse_date_attest :
    parse_date (some " 01/23/2026") = tryFormatList DATE_FORMATS (pyStrip " 01/23/2026")
    ∧ parse_date (some "not a date") = none :=
  ⟨parse_date_priority_and_fallback.2.1 " 01/23/2026" (by decide),
   parse_date_priority_and_fallback.2.2.2.2 "not a date" (by decide)⟩

/-- C4: when the wrapped operation fails on all three attempts, retry_on_error
    sleeps exactly twice — BASE_DELAY * 2^0 = 2 s after the first failure and
    BASE_DELAY * 2^1 = 4 s after the second — and re-raises the final
    attempt's exception with no further sleep. -/
theorem retry_three_failures_two_sleeps {α : Type} (f : Nat → Except String α)
    (e0 e1 e2 : String)
    (h0 : f 0 = .error e0) (h1 : f 1 = .error e1) (h2 : f 2 = .error e2) :
    retry_on_error f = (.error e2, [2, 4]) := by
  have hr : List.range MAX_RETRIES = [0, 1, 2] := by decide
  simp [retry_on_error, hr, retryGo, h0, h1, h2, MAX_RETRIES, BASE_DELAY]

/-- Attestation of retry_three_failures_two_sleeps at a concrete operation. -/
theorem retry_attest :
    retry_on_error (fun _ => (.error "quota exceeded" : Except String Nat))
      = (.error "quota exceeded", [2, 4]) :=
  retry_three_failures_two_sleeps _ "quota exceeded" "quota exceeded" "quota exceeded"
    rfl rfl rfl

/-- C5: replacing with an empty row list short-circuits before the transaction
    is opened: it returns 0 and leaves the store — in particular every
    previously committed issue row — completely untouched. -/
theorem safe_replace_empty_noop (db : DB) (fp : FailPoint) :
    safe_replace_issues [] fp db = (.ok 0, db) := by
  simp [safe_replace_issues]

/-- Whenever safe_replace_issues raises, the store component of the outcome is
    the original store (rollback), and the raised error is the result. -/
theorem safe_replace_error_pair (rows : List Row) (fp : FailPoint) (db : DB)
    (e : String) (h : (safe_replace_issues rows fp db).1 = .error e) :
    safe_replace_issues rows fp db = (.error e, db) := by
  by_cases hr : rows = []
  · subst hr; simp [safe_replace_issues] at h
  · cases fp with
    | atDelete m =>
      simp only [safe_replace_issues, hr, if_false] at h ⊢
      simp at h
      rw [h]
    | noFail =>
      cases hrun : runInserts .noFail rows 0 [] with
      | error e' =>
        simp only [safe_replace_issues, hr, if_false, hrun] at h ⊢
        simp at h
        rw [h]
      | ok work => simp [safe_replace_issues, hr, hrun] at h
    | atInsert j m =>
      cases hrun : runInserts (.atInsert j m) rows 0 [] with
      | error e' =>
        simp only [safe_replace_issues, hr, if_false, hrun] at h ⊢
        simp at h
        rw [h]
      | ok work => simp [safe_replace_issues, hr, hrun] at h

/-- A fault injected at insert index j inside the row range makes the
    executemany loop raise. -/
theorem runInserts_trigger_error (m : String) :
    ∀ (rows : List Row) (j idx : Nat) (work : List StoredRow),
      idx ≤ j → j < idx + rows.length →
      ∃ e, runInserts (.atInsert j m) rows idx work = .error e := by
  intro rows
  induction rows with
  | nil =>
    intro j idx work h1 h2
    exfalso
    simp only [List.length_nil, Nat.add_zero] at h2
    omega
  | cons r rest ih =>
    intro j idx work h1 h2
    by_cases hj : j = idx
    · subst hj
      exact ⟨m, by simp [runInserts, fpTriggersAt, fpMsg]⟩
    · have htrig : fpTriggersAt (.atInsert j m) idx = false := by
        simp only [fpTriggersAt]
        exact beq_eq_false_iff_ne.mpr hj
      cases hassign : assignId r.id work with
      | error e => exact ⟨e, by simp [runInserts, htrig, hassign]⟩
      | ok pk =>
        have h2' : j < (idx + 1) + rest.length := by
          simp only [List.length_cons] at h2; omega
        obtain ⟨e, he⟩ :=
          ih j (idx + 1) (insertOrReplace (toStored pk r) work) (by omega) h2'
        exact ⟨e, by simp [runInserts, htrig, hassign, he]⟩

/-- C1: for a non-empty row list, any failure of the atomic replace — whether
    raised by the DELETE step or injected anywhere inside the bulk insert —
    leaves the previously committed issue dataset fully intact and re-raises
    the failure to the caller. -/
theorem safe_replace_failure_rolls_back (rows : List Row) (db : DB)
    (fp : FailPoint) (hne : rows ≠ []) :
    (∀ e, (safe_replace_issues rows fp db).1 = .error e →
        safe_replace_issues rows fp db = (.error e, db))
    ∧ (∀ m, fp = .atDelete m → safe_replace_issues rows fp db = (.error m, db))
    ∧ (∀ j m, fp = .atInsert j m → j < rows.length →
        ∃ e, safe_replace_issues rows fp db = (.error e, db)) := by
  refine ⟨fun e h => safe_replace_error_pair rows fp db e h, ?_, ?_⟩
  · intro m hfp
    subst hfp
    simp [safe_replace_issues, hne]
  · intro j m hfp hj
    subst hfp
    obtain ⟨e, he⟩ :=
      runInserts_trigger_error m rows j 0 [] (Nat.zero_le j) (by simpa using hj)
    exact ⟨e, by simp [safe_replace_issues, hne, he]⟩

/-- Attestation of safe_replace_failure_rolls_back: a delete-step fault and an
    insert-step fault both leave the one previously committed row in place. -/
theorem safe_replace_rollback_attest :
    safe_replace_issues [exRow 1 "fresh"] (.atDelete "disk full") dbPrev
      = (.error "disk full", dbPrev)
    ∧ ∃ e, safe_replace_issues [exRow 1 "fresh"] (.atInsert 0 "io error") dbPrev
      = (.error e, dbPrev) :=
  ⟨(safe_replace_failure_rolls_back [exRow 1 "fresh"] dbPrev _ (by decide)).2.1
      "disk full" rfl,
   (safe_replace_failure_rolls_back [exRow 1 "fresh"] dbPrev _ (by decide)).2.2
      0 "io error" rfl (by decide)⟩

/-- C2: any exception from the fetch step or the replace step inside sync is
    caught at the pipeline boundary: a ledger record with rows_synced = 0,
    status "failed" and the error text is appended, the issue table is left as
    it was, and False is returned.  (sync is a total function into Bool × DB:
    no exception propagates past it.) -/
theorem sync_records_failure_and_returns_false (db : DB)
    (fetchRes : Except String (List RawRow)) (fp : FailPoint) :
    (∀ e, fetchRes = .error e →
      sync fetchRes fp db
        = (false, { db with sync_log := db.sync_log ++ [⟨0, "failed", e⟩] }))
    ∧ (∀ raws e, fetchRes = .ok raws →
      (safe_replace_issues (transform_data raws).1 fp db).1 = .error e →
      sync fetchRes fp db
        = (false, { db with sync_log := db.sync_log ++ [⟨0, "failed", e⟩] })) := by
  constructor
  · intro e hf
    subst hf
    simp [sync, log_sync]
  · intro raws e hf hrep
    subst hf
    have hpair := safe_replace_error_pair (transform_data raws).1 fp db e hrep
    simp [sync, hpair, log_sync]

/-- Attestation of sync_records_failure_and_returns_false: a failed fetch and
    a failed replace each append a failed ledger record and return False. -/
theorem sync_failure_attest :
    sync (.error "network down") .noFail dbPrev
      = (false, { dbPrev with sync_log := dbPrev.sync_log ++ [⟨0, "failed", "network down"⟩] })
    ∧ sync (.ok [exRawRow]) (.atDelete "disk full") dbPrev
      = (false, { dbPrev with sync_log := dbPrev.sync_log ++ [⟨0, "failed", "disk full"⟩] }) :=
  ⟨(sync_records_failure_and_returns_false dbPrev _ .noFail).1 "network down" rfl,
   (sync_records_failure_and_returns_false dbPrev _ (.atDelete "disk full")).2
      [exRawRow] "disk full" rfl (by decide)⟩

/-- transform_data characterized: retained rows are exactly the raw rows whose
    ID survives the emptiness test, in input order, and the skipped count is
    the number of dropped rows. -/
theorem transform_data_spec (raws : List RawRow) :
    (transform_data raws).1
      = (raws.filter (fun r => !badId (rawGet r.ID))).map mapRow
    ∧ (transform_data raws).2
      = (raws.filter (fun r => badId (rawGet r.ID))).length := by
  induction raws with
  | nil => exact ⟨rfl, rfl⟩
  | cons r rest ih =>
    by_cases hb : badId (rawGet r.ID)
    · simp [transform_data, List.filter_cons, hb, ih.1, ih.2]
    · simp [transform_data, List.filter_cons, hb, ih.1, ih.2]

/-- A row whose id value is the empty string makes the executemany loop raise
    (datatype mismatch against the INTEGER PRIMARY KEY), whatever else
    happens. -/
theorem runInserts_error_of_empty_id :
    ∀ (rows : List Row) (fp : FailPoint) (idx : Nat) (work : List StoredRow),
      (∃ r ∈ rows, r.id = Cell.s "") →
      ∃ e, runInserts fp rows idx work = .error e := by
  intro rows
  induction rows with
  | nil =>
    intro fp idx work hex
    obtain ⟨r, hr, _⟩ := hex
    exact absurd hr (List.not_mem_nil r)
  | cons r rest ih =>
    intro fp idx work hex
    obtain ⟨x, hx, hid⟩ := hex
    by_cases ht : fpTriggersAt fp idx
    · exact ⟨fpMsg fp, by simp [runInserts, ht]⟩
    · rcases List.mem_cons.mp hx with hx1 | hx2
      · subst hx1
        have hmm : assignId x.id work = .error "datatype mismatch" := by
          rw [hid]; rfl
        exact ⟨"datatype mismatch", by simp [runInserts, ht, hmm]⟩
      · cases hassign : assignId r.id work with
        | error e => exact ⟨e, by simp [runInserts, ht, hassign]⟩
        | ok pk =>
          obtain ⟨e, he⟩ :=
            ih fp (idx + 1) (insertOrReplace (toStored pk r) work) ⟨x, hx2, hid⟩
          exact ⟨e, by simp [runInserts, ht, hassign, he]⟩

/-- C6: transform_data drops exactly the raw rows whose external ID is absent,
    empty or None, counting them in skipped_count and never failing the batch;
    and the storage layer refuses any canonical row whose id is the empty
    string — the whole replace raises and the previously committed dataset is
    untouched — so no issue row with a missing or empty id is ever stored
    (every committed row carries an integer primary key). -/
theorem empty_id_rows_never_stored :
    (∀ raws : List RawRow,
      (transform_data raws).1
        = (raws.filter (fun r => !badId (rawGet r.ID))).map mapRow
      ∧ (transform_data raws).2
        = (raws.filter (fun r => badId (rawGet r.ID))).length)
    ∧ (∀ (rows : List Row) (db : DB) (fp : FailPoint),
      (∃ r ∈ rows, r.id = Cell.s "") →
      (safe_replace_issues rows fp db).2 = db
      ∧ ∃ e, (safe_replace_issues rows fp db).1 = .error e) := by
  refine ⟨transform_data_spec, ?_⟩
  intro rows db fp hex
  have hne : rows ≠ [] := by
    obtain ⟨r, hr, _⟩ := hex
    exact List.ne_nil_of_mem hr
  obtain ⟨e, he⟩ := runInserts_error_of_empty_id rows fp 0 [] hex
  cases fp with
  | atDelete m => constructor <;> simp [safe_replace_issues, hne]
  | noFail => constructor <;> simp [safe_replace_issues, hne, he]
  | atInsert j m => constructor <;> simp [safe_replace_issues, hne, he]

/-- Attestation of empty_id_rows_never_stored: a concrete empty-id row (as
    produced by a whitespace-only spreadsheet ID) is never committed. -/
theorem empty_id_attest :
    (safe_replace_issues [emptyIdRow] .noFail dbPrev).2 = dbPrev
    ∧ ∃ e, (safe_replace_issues [emptyIdRow] .noFail dbPrev).1 = .error e :=
  empty_id_rows_never_stored.2 [emptyIdRow] dbPrev .noFail
    ⟨emptyIdRow, List.mem_cons_self _ _, rfl⟩

/-- Reading back a stored row recovers the canonical row (up to the resolved
    primary key) when every non-id field was a string. -/
theorem storedToRow_toStored (pk : Int) (r : Row) (h : rowTextFields r = true) :
    storedToRow (toStored pk r) = { r with id := .i pk } := by
  obtain ⟨rid, rdate, rchan, rsrc, rcat, riss, rown, rrep, rprog, rres, rpcat⟩ := r
  simp only [rowTextFields, Bool.and_eq_true] at h
  obtain ⟨⟨⟨⟨⟨⟨⟨⟨⟨h1, h2⟩, h3⟩, h4⟩, h5⟩, h6⟩, h7⟩, h8⟩, h9⟩, h10⟩
    := h
  have key : ∀ c : Cell, cellIsStr c = true → optCell (toText c) = c := by
    intro c hc
    cases c with
    | s v => rfl
    | i v => simp [cellIsStr] at hc
    | null => simp [cellIsStr] at hc
  simp only [storedToRow, toStored, Row.mk.injEq]
  exact ⟨trivial, key _ h1, key _ h2, key _ h3, key _ h4, key _ h5, key _ h6,
    key _ h7, key _ h8, key _ h9, key _ h10⟩

/-- With integer, pairwise-distinct ids that also avoid the working table, the
    executemany loop plainly appends the stored images in input order. -/
theorem runInserts_distinct :
    ∀ (rows : List Row) (work : List StoredRow) (idx : Nat),
      (∀ r ∈ rows, cellIsInt r.id = true) →
      List.Pairwise (fun a b => a.id ≠ b.id) rows →
      (∀ r ∈ rows, ∀ w ∈ work, w.id ≠ cellInt r.id) →
      runInserts .noFail rows idx work
        = .ok (work ++ rows.map (fun r => toStored (cellInt r.id) r)) := by
  intro rows
  induction rows with
  | nil => intro work idx _ _ _; simp [runInserts]
  | cons r rest ih =>
    intro work idx hint hpw hdisj
    obtain ⟨n, hn⟩ : ∃ n, r.id = .i n := by
      have hr := hint r (List.mem_cons_self _ _)
      cases hid : r.id with
      | s v => rw [hid] at hr; simp [cellIsInt] at hr
      | i v => exact ⟨v, rfl⟩
      | null => rw [hid] at hr; simp [cellIsInt] at hr
    have hassign : assignId r.id work = .ok n := by rw [hn]; rfl
    have hcellInt : cellInt r.id = n := by rw [hn]; rfl
    have hior : insertOrReplace (toStored n r) work = work ++ [toStored n r] := by
      unfold insertOrReplace
      have : work.filter (fun x => x.id ≠ (toStored n r).id) = work := by
        rw [List.filter_eq_self]
        intro w hw
        have hwid := hdisj r (List.mem_cons_self _ _) w hw
        rw [hcellInt] at hwid
        simpa [toStored] using hwid
      rw [this]
    have hrec := ih (work ++ [toStored n r]) (idx + 1)
      (fun x hx => hint x (List.mem_cons_of_mem _ hx))
      hpw.of_cons
      (by
        intro x hx w hw
        rcases List.mem_append.mp hw with hw1 | hw2
        · exact hdisj x (List.mem_cons_of_mem _ hx) w hw1
        · have hwr : w = toStored n r := by simpa using hw2
          obtain ⟨n', hn'⟩ : ∃ n', x.id = .i n' := by
            have hx' := hint x (List.mem_cons_of_mem _ hx)
            cases hid : x.id with
            | s v => rw [hid] at hx'; simp [cellIsInt] at hx'
            | i v => exact ⟨v, rfl⟩
            | null => rw [hid] at hx'; simp [cellIsInt] at hx'
          have hne : r.id ≠ x.id := List.rel_of_pairwise_cons hpw hx
          rw [hwr]
          simp only [toStored]
          rw [hn']
          simp only [cellInt]
          intro hcontra
          exact hne (by rw [hn, hn', hcontra])
      )
    simp only [runInserts, fpTriggersAt, Bool.false_eq_true, if_false, hassign,
      hior, hrec, List.map_cons, hcellInt]
    simp

/-- C8 as stated fails on duplicate ids: replacing with two canonical rows
    that share id 1 succeeds and reports 2 rows written, but the stored issue
    count is 1, not len(rows) = 2 (INSERT OR REPLACE keeps the last row). -/
theorem replace_count_duplicate_ids_ce :
    (safe_replace_issues [exRow 1 "one", { exRow 1 "one" with issue := .s "two" }]
        .noFail emptyDB).1 = .ok 2
    ∧ get_issues_count
        (safe_replace_issues [exRow 1 "one", { exRow 1 "one" with issue := .s "two" }]
          .noFail emptyDB).2
      ≠ [exRow 1 "one", { exRow 1 "one" with issue := .s "two" }].length := by
  decide

/-- C8 amended: for every non-empty list of canonical rows with integer,
    pairwise-distinct ids and string-valued remaining fields, a successful
    safe_replace_issues reports len(rows) rows written, get_issues_count then
    equals len(rows), and every input row reads back exactly as written. -/
theorem replace_count_and_roundtrip (rows : List Row) (db : DB)
    (hne : rows ≠ [])
    (hint : ∀ r ∈ rows, cellIsInt r.id = true)
    (hpw : List.Pairwise (fun a b => a.id ≠ b.id) rows)
    (htext : ∀ r ∈ rows, rowTextFields r = true) :
    (safe_replace_issues rows .noFail db).1 = .ok rows.length
    ∧ get_issues_count (safe_replace_issues rows .noFail db).2 = rows.length
    ∧ ∀ r ∈ rows, ∃ sr ∈ (safe_replace_issues rows .noFail db).2.issues,
        storedToRow sr = r := by
  have hrun := runInserts_distinct rows [] 0 hint hpw (by simp)
  simp only [List.nil_append] at hrun
  have hsr : safe_replace_issues rows .noFail db
      = (.ok rows.length,
         { db with issues := rows.map (fun r => toStored (cellInt r.id) r) }) := by
    simp [safe_replace_issues, hne, hrun]
  refine ⟨by rw [hsr], by rw [hsr]; simp [get_issues_count], ?_⟩
  intro r hr
  refine ⟨toStored (cellInt r.id) r, ?_, ?_⟩
  · rw [hsr]
    exact List.mem_map_of_mem _ hr
  · obtain ⟨n, hn⟩ : ∃ n, r.id = .i n := by
      have hr' := hint r hr
      cases hid : r.id with
      | s v => rw [hid] at hr'; simp [cellIsInt] at hr'
      | i v => exact ⟨v, rfl⟩
      | null => rw [hid] at hr'; simp [cellIsInt] at hr'
    rw [storedToRow_toStored _ _ (htext r hr)]
    obtain ⟨rid, rdate, rchan, rsrc, rcat, riss, rown, rrep, rprog, rres, rpcat⟩ := r
    simp only at hn
    subst hn
    simp [cellInt]

/-- Attestation of replace_count_and_roundtrip on two concrete rows replacing
    a previously committed store. -/
theorem replace_roundtrip_attest :
    (safe_replace_issues [exRow 1 "one", exRow 2 "two"] .noFail dbPrev).1
      = .ok [exRow 1 "one", exRow 2 "two"].length
    ∧ get_issues_count
        (safe_replace_issues [exRow 1 "one", exRow 2 "two"] .noFail dbPrev).2
      = [exRow 1 "one", exRow 2 "two"].length
    ∧ ∀ r ∈ [exRow 1 "one", exRow 2 "two"],
        ∃ sr ∈ (safe_replace_issues [exRow 1 "one", exRow 2 "two"] .noFail dbPrev).2.issues,
          storedToRow sr = r :=
  replace_count_and_roundtrip [exRow 1 "one", exRow 2 "two"] dbPrev
    (by decide) (by decide) (by decide) (by decide)

/-- insertDesc produces a permutation of consing the new row. -/
theorem insertDesc_perm (r : StoredRow) :
    ∀ l : List StoredRow, (insertDesc r l).Perm (r :: l) := by
  intro l
  induction l with
  | nil => simp [insertDesc]
  | cons x xs ih =>
    by_cases h : r.id ≤ x.id
    · simp only [insertDesc, h, if_pos]
      exact (ih.cons x).trans (List.Perm.swap r x xs)
    · simp [insertDesc, h]

/-- The id-descending sort is a permutation of its input. -/
theorem sortByIdDesc_perm (l : List StoredRow) : (sortByIdDesc l).Perm l := by
  induction l with
  | nil => simp [sortByIdDesc]
  | cons x xs ih =>
    exact ((insertDesc_perm x (sortByIdDesc xs)).trans (ih.cons x)).symm.symm

/-- insertDesc keeps the list sorted by non-increasing id. -/
theorem insertDesc_sorted (r : StoredRow) :
    ∀ l : List StoredRow, List.Pairwise (fun a b => b.id ≤ a.id) l →
      List.Pairwise (fun a b => b.id ≤ a.id) (insertDesc r l) := by
  intro l
  induction l with
  | nil => intro _; simp [insertDesc]
  | cons x xs ih =>
    intro h
    rw [List.pairwise_cons] at h
    by_cases hle : r.id ≤ x.id
    · simp only [insertDesc, hle, if_pos]
      rw [List.pairwise_cons]
      refine ⟨?_, ih h.2⟩
      intro y hy
      have hy' := (insertDesc_perm r xs).mem_iff.mp hy
      rcases List.mem_cons.mp hy' with hy1 | hy2
      · rw [hy1]; exact hle
      · exact h.1 y hy2
    · simp only [insertDesc]
      rw [if_neg hle, List.pairwise_cons]
      refine ⟨?_, by rw [List.pairwise_cons]; exact h⟩
      intro y hy
      have hxr : x.id ≤ r.id := le_of_not_le hle
      rcases List.mem_cons.mp hy with hy1 | hy2
      · rw [hy1]; exact hxr
      · exact le_trans (h.1 y hy2) hxr

/-- The id-descending sort is sorted by non-increasing id. -/
theorem sortByIdDesc_sorted (l : List StoredRow) :
    List.Pairwise (fun a b => b.id ≤ a.id) (sortByIdDesc l) := by
  induction l with
  | nil => simp [sortByIdDesc]
  | cons x xs ih => exact insertDesc_sorted x (sortByIdDesc xs) ih

/-- C9 as stated fails: on a store whose rows were inserted in id order
    [2, 1], the most recently inserted row has id 1, but get_all_issues
    (ORDER BY id DESC) puts id 2 first — the order is by descending id, not by
    insertion recency. -/
theorem get_all_issues_recency_ce :
    (dbOutOfOrder.issues.getLast?).map (fun r => r.id) = some 1
    ∧ (get_all_issues dbOutOfOrder).head?.map (fun r => r.id) = some 2
    ∧ (get_all_issues dbOutOfOrder).head?.map (fun r => r.id)
      ≠ (dbOutOfOrder.issues.getLast?).map (fun r => r.id) := by
  decide

/-- C9 amended: get_all_issues returns exactly the stored issue rows (a
    permutation of the table) in a stable order sorted by descending id —
    the largest id first, which coincides with insertion recency only when
    ids arrive in increasing order. -/
theorem get_all_issues_sorted_desc (db : DB) :
    (get_all_issues db).Perm db.issues
    ∧ List.Pairwise (fun a b => b.id ≤ a.id) (get_all_issues db) :=
  ⟨sortByIdDesc_perm db.issues, sortByIdDesc_sorted db.issues⟩

/-- C10: filter_issues treats a None or empty-string argument as an absent
    predicate — with all six arguments absent or empty it returns the full
    issue set (in get_all_issues order), and passing the empty string for any
    of the equality arguments is the same call as passing None, so the
    category/progress/owner/problem_category arguments can never express an
    equals-empty-string predicate. -/
theorem filter_issues_falsy_absent (db : DB) :
    filter_issues none none none none none none db = get_all_issues db
    ∧ filter_issues (some "") (some "") (some "") (some "") (some "") (some "") db
      = get_all_issues db
    ∧ (∀ p o df dt pc, filter_issues (some "") p o df dt pc db
        = filter_issues none p o df dt pc db)
    ∧ (∀ c o df dt pc, filter_issues c (some "") o df dt pc db
        = filter_issues c none o df dt pc db)
    ∧ (∀ c p df dt pc, filter_issues c p (some "") df dt pc db
        = filter_issues c p none df dt pc db)
    ∧ (∀ c p o dt pc, filter_issues c p o (some "") dt pc db
        = filter_issues c p o none dt pc db)
    ∧ (∀ c p o df pc, filter_issues c p o df (some "") pc db
        = filter_issues c p o df none pc db)
    ∧ (∀ c p o df dt, filter_issues c p o df dt (some "") db
        = filter_issues c p o df dt none db) := by
  refine ⟨?_, ?_, ?_, ?_, ?_, ?_, ?_, ?_⟩ <;>
    simp [filter_issues, condHolds, dateFromHolds, dateToHolds, get_all_issues]
